import Mathlib

/-
Verification development for the Flipkart purchase-order parsing engine
(`flipkart_po_parser.py`).  The Python code is shallowly embedded: pandas
cells become an inductive `CellVal`, Python dicts become association lists
with overwrite-on-insert, fallible Python code (exceptions) becomes
`Except Err`, and float arithmetic is modelled over `ℚ` with Python's
banker's rounding made exact.  Regex operations from the source are
embedded as explicit character-list scans that follow the semantics of the
specific patterns used by the code.
-/

deriving instance DecidableEq for Except

namespace FlipkartPO

/- The Batteries rational-number operations are `@[irreducible]`, which
blocks `decide`/`rfl` evaluation of the concrete documents below; this
development evaluates them, so they are made semireducible for this file. -/
attribute [local semireducible] Rat.add Rat.sub Rat.mul Rat.inv Rat.ofScientific

/-! ### Character and string primitives

`isPyWs` models the regex class `\s` (ASCII part) and Python's `str.strip`
whitespace; `isWordChar` models the regex word class `\w` used by the `\b`
boundary assertions (inputs are ASCII in this document format). -/

def isPyWs (c : Char) : Bool :=
  c == ' ' || c == '\t' || c == '\n' || c == '\r' || c == '\x0b' || c == '\x0c'

def isWordChar (c : Char) : Bool :=
  c.isAlphanum || c == '_'

def isWordCharOpt : Option Char → Bool
  | some c => isWordChar c
  | none => false

def pyStripL (l : List Char) : List Char :=
  ((l.dropWhile isPyWs).reverse.dropWhile isPyWs).reverse

/-- Python `str.strip()` with no argument (whitespace on both ends). -/
def pyStrip (s : String) : String :=
  String.mk (pyStripL s.data)

/-- Python's substring test `pat in s`. -/
def strContainsL (s pat : List Char) : Bool :=
  (List.range (s.length + 1)).any (fun i => pat.isPrefixOf (s.drop i))

def strContains (s pat : String) : Bool :=
  strContainsL s.data pat.data

/-- Index of the first element satisfying `p` (used both as the embedding
of first-match row scans and as the specification-side characterization of
boundary indices). -/
def firstIdxWhere {α : Type _} (p : α → Bool) : List α → Option Nat
  | [] => none
  | a :: as => if p a then some 0 else (firstIdxWhere p as).map (· + 1)

/-- Case-insensitive character comparison (ASCII lowering). -/
def lowerEq (a b : Char) : Bool :=
  a.toLower == b.toLower

def ciIsPrefix : List Char → List Char → Bool
  | [], _ => true
  | _ :: _, [] => false
  | a :: ps, b :: ls => lowerEq a b && ciIsPrefix ps ls

/-- Python `str.replace(pat, repl)` on character lists for a nonempty
pattern: non-overlapping left-to-right scan.  The `fuel` argument only
makes the recursion structural (each step consumes at least one character,
so any fuel at least the list length gives the replace semantics). -/
def replaceAllL (pat repl : List Char) : Nat → List Char → List Char
  | _, [] => []
  | 0, l => l
  | n + 1, c :: cs =>
    if pat.isPrefixOf (c :: cs) then
      repl ++ replaceAllL pat repl n ((c :: cs).drop pat.length)
    else
      c :: replaceAllL pat repl n cs

/-- Python `str.replace` lifted to `String` (the empty-pattern case never
occurs in the source; it is returned unchanged). -/
def strReplace (s pat repl : String) : String :=
  match pat.data with
  | [] => s
  | _ :: _ => String.mk (replaceAllL pat.data repl.data s.data.length s.data)

def natOfDigits (l : List Char) : Nat :=
  l.foldl (fun a c => a * 10 + (c.toNat - '0'.toNat)) 0

/-! ### Embedded regex searches for `_extract_details_from_address`

`matchesWordAt s pat ci i` is the test "the pattern matches at index `i`
with `\b` boundaries on both sides", i.e. the per-position test the regex
engine performs for the patterns `\b<token>\b` used by the source (with
`re.IGNORECASE` when `ci` is true).  `firstWordIdx` is the leftmost match,
which is what both `re.findall` (first element) and `re.sub` (first
substitution site) deliver for these patterns. -/

def matchesWordAt (s pat : List Char) (ci : Bool) (i : Nat) : Bool :=
  (if ci then ciIsPrefix pat (s.drop i) else pat.isPrefixOf (s.drop i))
  && (i == 0 || !(isWordCharOpt s[i-1]?))
  && !(isWordCharOpt s[i + pat.length]?)

def firstWordIdx (s pat : List Char) (ci : Bool) : Option Nat :=
  (List.range (s.length + 1)).find? (matchesWordAt s pat ci)

/-- Per-position test for the pincode pattern `\b\d{6}\b`. -/
def pincodeAt (s : List Char) (i : Nat) : Bool :=
  ((s.drop i).take 6).length == 6
  && ((s.drop i).take 6).all Char.isDigit
  && (i == 0 || !(isWordCharOpt s[i-1]?))
  && !(isWordCharOpt s[i+6]?)

/-- Leftmost `\b\d{6}\b` token, i.e. `re.findall(pincode_pattern, address)[0]`
when a match exists. -/
def findPincodeL (s : List Char) : Option (List Char) :=
  ((List.range (s.length + 1)).find? (pincodeAt s)).map (fun i => (s.drop i).take 6)

def findPincode (s : String) : Option String :=
  (findPincodeL s.data).map String.mk

/-- The fixed ordered list of region names from the source. -/
def indianStates : List String :=
  ["Andhra Pradesh", "Arunachal Pradesh", "Assam", "Bihar", "Chhattisgarh", "Goa",
   "Gujarat", "Haryana", "Himachal Pradesh", "Jharkhand", "Karnataka", "Kerala",
   "Madhya Pradesh", "Maharashtra", "Manipur", "Meghalaya", "Mizoram", "Nagaland",
   "Odisha", "Punjab", "Rajasthan", "Sikkim", "Tamil Nadu", "Telangana",
   "Tripura", "Uttar Pradesh", "Uttarakhand", "West Bengal", "Delhi", "Puducherry",
   "Jammu and Kashmir", "Ladakh", "Andaman and Nicobar Islands", "Chandigarh",
   "Dadra and Nagar Haveli and Daman and Diu", "Lakshadweep"]

/-- First state (in enumeration order) with a whole-word case-insensitive
occurrence: the `for state in indian_states: if re.search(...)` loop. -/
def findState (s : String) : Option String :=
  indianStates.find? (fun nm => (firstWordIdx s.data nm.data true).isSome)

/-- One cleanup substitution
`re.sub(r'(\b' + tok + r'\b)(.*)', lambda m: m.group(1) + m.group(2).replace(tok, ''), s, count=1)`:
at the leftmost whole-word occurrence of `tok`, the matched token itself
(group 1) is kept, and in the remainder of that line (group 2, since `.`
does not cross a newline) every occurrence of `tok` is removed with
`str.replace` (exact-case, matching the lambda's `m.group(2).replace`). -/
def cleanTokenStep (ci : Bool) (pat s : List Char) : List Char :=
  match pat with
  | [] => s
  | p :: ps =>
    match firstWordIdx s (p :: ps) ci with
    | none => s
    | some i =>
      let e := i + (p :: ps).length
      let tail := s.drop e
      let g2 := tail.takeWhile (fun c => c ≠ '\n')
      let rest := tail.dropWhile (fun c => c ≠ '\n')
      s.take e ++ replaceAllL (p :: ps) [] g2.length g2 ++ rest

/-- The substitution `re.sub(r'\s{2,}', ' ', s)`: every maximal run of two
or more whitespace characters becomes a single space (a lone whitespace
character stays as it is).  `skip` means "inside a run already replaced". -/
def collapseWsAux (skip : Bool) : List Char → List Char
  | [] => []
  | c :: cs =>
    if skip && isPyWs c then collapseWsAux true cs
    else if isPyWs c then
      match cs with
      | [] => [c]
      | d :: _ => if isPyWs d then ' ' :: collapseWsAux true cs else c :: collapseWsAux false cs
    else c :: collapseWsAux false cs

def collapseWs (l : List Char) : List Char :=
  collapseWsAux false l

/-- The substitution `re.sub(r',\s*,', ',', s)`: a comma, optional
whitespace, and a second comma collapse to one comma; scanning resumes
after each replaced match.  `pending = some buf` records a comma seen and
the whitespace read since (reversed), not yet known to be part of a
match. -/
def collapseCommasAux (pending : Option (List Char)) : List Char → List Char
  | [] =>
    match pending with
    | some buf => ',' :: buf.reverse
    | none => []
  | c :: cs =>
    match pending with
    | some buf =>
      if isPyWs c then collapseCommasAux (some (c :: buf)) cs
      else if c == ',' then ',' :: collapseCommasAux none cs
      else (',' :: buf.reverse) ++ (c :: collapseCommasAux none cs)
    | none =>
      if c == ',' then collapseCommasAux (some []) cs
      else c :: collapseCommasAux none cs

def collapseCommas (l : List Char) : List Char :=
  collapseCommasAux none l

/-- The substitution `re.sub(r',\s*$', '', s)`: if everything after the
last comma is whitespace, that comma and the trailing whitespace are
removed (the pattern's single possible match site). -/
def stripTrailingComma (l : List Char) : List Char :=
  match l.reverse.dropWhile isPyWs with
  | ',' :: rs => rs.reverse
  | _ => l

/-- The substitution `re.sub(r'(?i)\bGSTIN NO:\s*', '', s)`: every
word-boundary-preceded case-insensitive occurrence of "GSTIN NO:" and the
whitespace following it are removed.  `prevWord` tracks whether the
previous character was a word character (for the `\b` assertion), and
`skipWs` consumes the `\s*` tail of a match one character at a time; after
a removal the previously consumed character is `:` or whitespace, so
`prevWord` resumes as `false`. -/
def stripGstinAux (skipWs prevWord : Bool) : Nat → List Char → List Char
  | _, [] => []
  | 0, l => l
  | n + 1, c :: cs =>
    if skipWs && isPyWs c then stripGstinAux true false n cs
    else if !prevWord && ciIsPrefix "gstin no:".data (c :: cs) then
      stripGstinAux true false n ((c :: cs).drop 9)
    else c :: stripGstinAux false (isWordChar c) n cs

def stripGstin (l : List Char) : List Char :=
  stripGstinAux false false l.length l

structure AddrInfo where
  address : String
  pincode : Option String
  state : Option String
deriving Repr, DecidableEq

/-- The unconditional tail of the cleanup in
`_extract_details_from_address`: whitespace-run collapse, comma-pair
collapse, trailing-comma removal and GSTIN-label removal, each followed by
`.strip()` as in the source. -/
def finalCleanupL (l : List Char) : List Char :=
  pyStripL (stripGstin (pyStripL (stripTrailingComma
    (pyStripL (collapseCommas (pyStripL (collapseWs l)))))))

/-- Embedding of `_extract_details_from_address`: pincode = first
`\b\d{6}\b` token, state = first enumerated region with a whole-word
case-insensitive occurrence, then the four cleanup substitutions, each
followed by `.strip()` as in the source.  A `None` or empty argument takes
the early-return branch. -/
def extractDetailsFromAddress : Option String → AddrInfo
  | none => ⟨"", none, none⟩
  | some a =>
    if a = "" then ⟨"", none, none⟩
    else
      let s := a.data
      let pin := findPincode a
      let st := findState a
      let c1 := match pin with
        | none => s
        | some p => cleanTokenStep false p.data s
      let c2 := match st with
        | none => c1
        | some nm => cleanTokenStep true nm.data c1
      ⟨String.mk (finalCleanupL c2), pin, st⟩

/-! ### Cell values and extracted fields

A pandas cell is text, a number, or blank (`NaN`).  Floats are modelled
over `ℚ`.  `extracted_data`'s scalar entries form an association list with
dict semantics: insert overwrites in place (last write wins), and a stored
Python `None` (from `_get_next_non_empty_value` running off the row) is an
entry whose value is `Option.none`. -/

inductive CellVal where
  | str (s : String)
  | num (q : ℚ)
  | nan
deriving Repr, DecidableEq

def cellIsNa : CellVal → Bool
  | .nan => true
  | _ => false

def isStrCell : CellVal → Bool
  | .str _ => true
  | _ => false

abbrev Row := List CellVal

abbrev Fields := List (String × Option CellVal)

/-- Python dict assignment `d[k] = v`: overwrite in place, else append. -/
def fieldsInsert : Fields → String → Option CellVal → Fields
  | [], k, v => [(k, v)]
  | (k', v') :: rest, k, v =>
    if k' == k then (k, v) :: rest else (k', v') :: fieldsInsert rest k v

/-- Python `d.get(k)`: a missing key and a key stored with value `None`
both give `None`. -/
def fieldsGet (fs : Fields) (k : String) : Option CellVal :=
  ((fs.find? (fun p => p.1 == k)).map Prod.snd).join

/-- Embedding of `normalize_field_name`: strip, lowercase, collapse each
whitespace run to one space, spaces to underscores, collapse underscore
runs, strip underscores. -/
def wsRunsToSpaceAux (inRun : Bool) : List Char → List Char
  | [] => []
  | c :: cs =>
    if isPyWs c then
      (if inRun then [] else [' ']) ++ wsRunsToSpaceAux true cs
    else c :: wsRunsToSpaceAux false cs

/-- The substitution `re.sub(r'\s+', ' ', s)`: every whitespace run to one
space. -/
def wsRunsToSpace (l : List Char) : List Char :=
  wsRunsToSpaceAux false l

def underscoreRunsAux (inRun : Bool) : List Char → List Char
  | [] => []
  | c :: cs =>
    if c == '_' then
      (if inRun then [] else ['_']) ++ underscoreRunsAux true cs
    else c :: underscoreRunsAux false cs

/-- The substitution `re.sub(r'_+', '_', s)`. -/
def underscoreRuns (l : List Char) : List Char :=
  underscoreRunsAux false l

def normalizeFieldName (s : String) : String :=
  let l := (pyStripL s.data).map Char.toLower
  let l := wsRunsToSpace l
  let l := l.map (fun c => if c == ' ' then '_' else c)
  let l := underscoreRuns l
  String.mk ((l.dropWhile (fun c => c == '_')).reverse.dropWhile (fun c => c == '_')).reverse

/-! ### DocumentScanner (`_extract_order_details` / `_process_cell`) -/

/-- Embedding of `_get_next_non_empty_value`: first `pd.notna` cell
strictly right of `start_col_index`; `none` is the Python `None` return. -/
def nextNonEmptyValue (row : Row) (i : Nat) : Option CellVal :=
  (row.drop (i + 1)).find? (fun c => !(cellIsNa c))

/-- The fixed label list of `_process_cell` (verbatim, including the
duplicated "CATEGORY"). -/
def fieldsToExtract : List String :=
  ["PO#", "Nature Of Supply", "Nature of Transaction", "PO Expiry",
   "CATEGORY", "ORDER DATE", "SUPPLIER NAME", "CATEGORY",
   "SUPPLIER ADDRESS", "SUPPLIER CONTACT", "Billed by", "Shipped From",
   "BILLED TO ADDRESS", "SHIPPED TO ADDRESS", "MODE OF PAYMENT",
   "CONTRACT REF ID", "CONTRACT VERSION", "CREDIT TERM"]

/-- Embedding of `_process_cell` for a text cell: the exact-match label
list, then the three substring-triggered special fields, each taking the
next non-blank value to the right. -/
def processCell (fields : Fields) (cell : String) (row : Row) (colIdx : Nat) : Fields :=
  let f1 := if fieldsToExtract.contains cell then
      fieldsInsert fields (normalizeFieldName cell) (nextNonEmptyValue row colIdx)
    else fields
  let f2 := if strContains cell "EMAIL" then
      fieldsInsert f1 (normalizeFieldName "Supplier EMAIL") (nextNonEmptyValue row colIdx)
    else f1
  let f3 := if strContains cell "GSTIN" then
      fieldsInsert f2 (normalizeFieldName "Billed By GSTIN") (nextNonEmptyValue row colIdx)
    else f2
  if strContains cell "State Code" then
    fieldsInsert f3 (normalizeFieldName "Billed By State Code") (nextNonEmptyValue row colIdx)
  else f3

/-- The test `"ORDER DETAILS" in str(cell)`: `str()` of a number or NaN
never contains the marker text, so only text cells can match. -/
def cellHasMarker (c : CellVal) : Bool :=
  match c with
  | .str s => strContains s "ORDER DETAILS"
  | _ => false

/-- One row of the scan: cells left to right; a text cell is processed by
`_process_cell`; if the cell contains the boundary marker the inner loop
breaks (cells to its right are not processed) and the flag is raised. -/
def scanRowAux (row : Row) (fields : Fields) (i : Nat) : List CellVal → Fields × Bool
  | [] => (fields, false)
  | c :: rest =>
    let f' := match c with
      | .str s => processCell fields s row i
      | _ => fields
    if cellHasMarker c then (f', true)
    else scanRowAux row f' (i + 1) rest

def scanRow (row : Row) (fields : Fields) : Fields × Bool :=
  scanRowAux row fields 0 row

inductive Err where
  | missingSection
  | indexError
  | typeError
  | attrError
  | zeroDivision
  | dateParseError
  | numParseError
  | nanUnsupported
  | valueErrorMsg (msg : String)
deriving Repr, DecidableEq

/-- The scan loop of `_extract_order_details`: rows from the top while the
flag is unset; a row is examined cell-by-cell only when its first cell is
text (`isinstance(row.iloc[0], str)`); `row.iloc[0]` of a width-zero row
would raise IndexError.  Exhausting the grid raises the
"Could not find ORDER DETAILS section" ValueError (`missingSection`). -/
def scanAux (fields : Fields) (idx : Nat) : List Row → Except Err (Fields × Nat)
  | [] => .error .missingSection
  | r :: rest =>
    match r with
    | [] => .error .indexError
    | c0 :: _ =>
      if isStrCell c0 then
        let fb := scanRow r fields
        if fb.2 then .ok (fb.1, idx) else scanAux fb.1 (idx + 1) rest
      else scanAux fields (idx + 1) rest

def extractOrderDetails (grid : List Row) : Except Err (Fields × Nat) :=
  scanAux [] 0 grid

/-- A row the scan examines cell-by-cell: its first cell holds text. -/
def scannedRow (r : Row) : Bool :=
  match r with
  | c :: _ => isStrCell c
  | [] => false

/-- A row containing the boundary marker in some cell. -/
def rowHasMarker (r : Row) : Bool :=
  r.any cellHasMarker

/-! ### LineItemTableExtractor (`_process_line_items`) -/

/-- A line-item record: the raw header cells as keys, zipped with the row
(`to_dict(orient="records")`). -/
abbrev LineItem := List (CellVal × CellVal)

/-- Python `item.get(k)` for string key `k`: only a text header cell equal
to `k` can match; duplicate column labels follow dict semantics (the last
assignment wins). -/
def itemGet (item : LineItem) (k : String) : Option CellVal :=
  (item.reverse.find? (fun p => decide (p.1 = CellVal.str k))).map Prod.snd

def itemGetD (item : LineItem) (k : String) (dflt : CellVal) : CellVal :=
  (itemGet item k).getD dflt

/-- The test `"Important Notification" in row.to_string()`: the rendered
row contains the marker exactly when some text cell contains it (numeric
and NaN renderings cannot). -/
def rowHasNotif (r : Row) : Bool :=
  r.any (fun c => match c with
    | .str s => strContains s "Important Notification"
    | _ => false)

/-- The totals scan over the original marker row: text cells containing
"Total Quantity=" / "Total=" store the next non-blank value to the right
under the normalized marker names. -/
def totalsAux (row : Row) (fields : Fields) (i : Nat) : List CellVal → Fields
  | [] => fields
  | c :: rest =>
    match c with
    | .str s =>
      let f1 := if strContains s "Total Quantity=" then
          fieldsInsert fields (normalizeFieldName "Total Quantity=") (nextNonEmptyValue row i)
        else fields
      let f2 := if strContains s "Total=" then
          fieldsInsert f1 (normalizeFieldName "Total=") (nextNonEmptyValue row i)
        else f1
      totalsAux row f2 (i + 1) rest
    | _ => totalsAux row fields (i + 1) rest

def totalsFromRow (fields : Fields) (row : Row) : Fields :=
  totalsAux row fields 0 row

/-- Embedding of `_process_line_items`.  The region after the boundary is
truncated strictly before the first "Important Notification" row; the
first remaining row supplies column labels and the rest become LineItems.
The totals step then evaluates
`df.iloc[start_row + important_notification_row_index]`: when no marker
row was found that index is Python `None` and `start_row + None` raises
TypeError (`typeError`); an empty region raises IndexError at
`table_df.iloc[0]` first (`indexError`). -/
def processLineItems (fields : Fields) (grid : List Row) (odIdx : Nat) :
    Except Err (List LineItem × Fields) :=
  let table := grid.drop (odIdx + 1)
  let notifIdx := firstIdxWhere rowHasNotif table
  let table2 := match notifIdx with
    | some i => table.take i
    | none => table
  match table2 with
  | [] => .error .indexError
  | hdr :: rows =>
    let items := rows.map (fun r => hdr.zip r)
    match notifIdx with
    | none => .error .typeError
    | some i =>
      match grid[odIdx + 1 + i]? with
      | none => .error .indexError
      | some nrow => .ok (items, totalsFromRow fields nrow)

/-! ### Extra-field lookup (`_process_extra_fields`)

`send_error_email` always ends in `raise ValueError(error_message)`, so a
non-empty missing list aborts with that ValueError; the message carries
the names of all unresolved fields. -/

structure ExtraFieldEntry where
  name : String
  extra_field_id : String
deriving Repr, DecidableEq

def resolveExtraField (data : List ExtraFieldEntry) (field : String) : Option String :=
  (data.find? (fun it => it.name == field)).map ExtraFieldEntry.extra_field_id

/-- One round of the field loop: a resolved field extends the mapping, an
unresolved one extends the missing list. -/
def pefStep (data : List ExtraFieldEntry) (acc : List (String × String) × List String)
    (f : String) : List (String × String) × List String :=
  match resolveExtraField data f with
  | some fid => (acc.1 ++ [(f, fid)], acc.2)
  | none => (acc.1, acc.2 ++ [f])

def processExtraFields (data : List ExtraFieldEntry) (req : List String) :
    Except Err (List (String × String)) :=
  let res := req.foldl (pefStep data) ([], [])
  if res.2.isEmpty then .ok res.1
  else .error (.valueErrorMsg ("Missing fields in response: " ++ String.intercalate ", " res.2))

/-! ### Date parsing (`_convert_to_unix`)

`datetime.strptime(s, "%d-%m-%y")` compiles to the anchored full-match
regex `(3[01]|[12]\d|0[1-9]|[1-9])-(1[0-2]|0[1-9]|[1-9])-(\d\d)` (CPython
`_strptime`): day and month accept one or two digits, the year exactly
two.  Since the three component languages contain only digits and the
separator is a literal dash, full-regex match is equivalent to splitting
on "-" into exactly three segments, each fully in its component language.
`%y` maps 00-68 to 2000-2068 and 69-99 to 1969-1999, and the
`datetime(...)` construction rejects out-of-range days for the month.
`int(time.mktime(...))` (a timezone-dependent epoch conversion) is
abstracted to the validated day-month-year triple. -/

/-- Dash splitting (Python `"-"`-separated decomposition of the anchored
regex): `splitOnDash "a-b" = ["a","b"]`, adjacent or edge dashes give
empty segments. -/
def splitOnDash (cur : List Char) : List Char → List (List Char)
  | [] => [cur.reverse]
  | c :: cs =>
    if c == '-' then cur.reverse :: splitOnDash [] cs
    else splitOnDash (c :: cur) cs

def segDigitsVal (seg : List Char) : Option Nat :=
  if seg.length > 0 && seg.all Char.isDigit then some (natOfDigits seg)
  else none

def dayOfSeg (seg : List Char) : Option Nat :=
  match segDigitsVal seg with
  | some v =>
    if (seg.length == 1 && 1 ≤ v) || (seg.length == 2 && 1 ≤ v && v ≤ 31) then some v
    else none
  | none => none

def monthOfSeg (seg : List Char) : Option Nat :=
  match segDigitsVal seg with
  | some v =>
    if (seg.length == 1 && 1 ≤ v) || (seg.length == 2 && 1 ≤ v && v ≤ 12) then some v
    else none
  | none => none

def yearOfSeg (seg : List Char) : Option Nat :=
  match segDigitsVal seg with
  | some v => if seg.length == 2 then some (if v ≤ 68 then 2000 + v else 1900 + v) else none
  | none => none

def isLeapYear (y : Nat) : Bool :=
  (y % 4 == 0 && y % 100 != 0) || y % 400 == 0

def daysInMonth (y m : Nat) : Nat :=
  if m == 2 then (if isLeapYear y then 29 else 28)
  else if m == 4 || m == 6 || m == 9 || m == 11 then 30
  else 31

abbrev Date := Nat × Nat × Nat

def parseDateDMY (s : String) : Option Date :=
  match splitOnDash [] s.data with
  | [a, b, c] =>
    match dayOfSeg a, monthOfSeg b, yearOfSeg c with
    | some d, some m, some y =>
      if d ≤ daysInMonth y m then some (d, m, y) else none
    | _, _, _ => none
  | _ => none

/-- Embedding of `_convert_to_unix`: `date_str.strip()` raises
AttributeError on `None` or a non-string; a failed `strptime` raises
ValueError (`dateParseError`). -/
def convertToUnix : Option CellVal → Except Err Date
  | some (.str s) =>
    match parseDateDMY (pyStrip s) with
    | some t => .ok t
    | none => .error .dateParseError
  | some _ => .error .attrError
  | none => .error .attrError

/-! ### Python numeric conversions over `ℚ` -/

/-- Python `float(str)` for plain decimal forms: optional sign, digits
with an optional fractional part (exponent/underscore/inf forms, which do
not occur in this document format, are out of the modelled domain). -/
def parseFloatQ (s : String) : Option ℚ :=
  let l := pyStripL s.data
  let sr : ℚ × List Char := match l with
    | '+' :: r => (1, r)
    | '-' :: r => (-1, r)
    | r => (1, r)
  let ip := sr.2.takeWhile Char.isDigit
  let rest := sr.2.dropWhile Char.isDigit
  match rest with
  | [] => if ip.isEmpty then none else some (sr.1 * natOfDigits ip)
  | '.' :: fr =>
    let fp := fr.takeWhile Char.isDigit
    if !(fr.dropWhile Char.isDigit).isEmpty then none
    else if ip.isEmpty && fp.isEmpty then none
    else some (sr.1 * ((natOfDigits ip : ℚ) + (natOfDigits fp : ℚ) / 10 ^ fp.length))
  | _ => none

def parseFloatE (s : String) : Except Err ℚ :=
  match parseFloatQ s with
  | some q => .ok q
  | none => .error .numParseError

/-- Python `float(x)` on a cell value (NaN, which Python propagates as a
float and only rejects later at `int()`, is outside the `ℚ` model and
surfaces as an error here). -/
def pyFloatE : CellVal → Except Err ℚ
  | .str s => parseFloatE s
  | .num q => .ok q
  | .nan => .error .nanUnsupported

def floatOfOpt : Option CellVal → Except Err ℚ
  | none => .error .typeError
  | some c => pyFloatE c

/-- Python `int(x)`: an integer-literal string (optional sign, digits
only), or truncation toward zero for a float. -/
def pyIntE : CellVal → Except Err Int
  | .str s =>
    let l := pyStripL s.data
    let sr : Int × List Char := match l with
      | '+' :: r => (1, r)
      | '-' :: r => (-1, r)
      | r => (1, r)
    if !sr.2.isEmpty && sr.2.all Char.isDigit then .ok (sr.1 * natOfDigits sr.2)
    else .error .numParseError
  | .num q => .ok (if 0 ≤ q then ⌊q⌋ else -⌊-q⌋)
  | .nan => .error .numParseError

/-- Python `x.replace(pat, repl)` on a cell value: AttributeError unless
the value is a string. -/
def pyStrReplaceE (c : CellVal) (pat repl : String) : Except Err String :=
  match c with
  | .str s => .ok (strReplace s pat repl)
  | _ => .error .attrError

/-- Floor of a rational (the denominator is positive, so floor division
of the numerator by the denominator). -/
def ratFloor (q : ℚ) : ℤ :=
  q.num.fdiv (q.den : ℤ)

/-- Python's builtin `abs()` on a rational. -/
def ratAbs (q : ℚ) : ℚ :=
  if q < 0 then -q else q

/-- Round half to even at integer precision (Python `round` on exact
values). -/
def roundHalfEven (q : ℚ) : ℤ :=
  let f := ratFloor q
  let r := q - (f : ℚ)
  if r < 1/2 then f
  else if 1/2 < r then f + 1
  else if f % 2 = 0 then f else f + 1

/-- Python `round(x, 2)` modelled exactly over `ℚ`. -/
def round2 (q : ℚ) : ℚ :=
  (roundHalfEven (q * 100) : ℚ) / 100

/-! ### OrderAssembler (`_create_order_json`) -/

structure Product where
  name : Option CellVal
  ean : String
  price_brutto : ℚ
  tax_rate : ℚ
  quantity : Int
deriving Repr, DecidableEq

/-- `custom_extra_fields`: a Python dict whose keys come from
`extra_field_mapping.get(...)` (so a key may be Python `None`) and whose
values may be `None`. -/
abbrev Dict := List (Option String × Option CellVal)

def dictInsert : Dict → Option String → Option CellVal → Dict
  | [], k, v => [(k, v)]
  | (k', v') :: rest, k, v =>
    if k' == k then (k, v) :: rest else (k', v') :: dictInsert rest k v

/-- Key lookup distinguishing a missing key (`none`) from a key stored
with value `None` (`some none`). -/
def dictFind (dct : Dict) (k : Option String) : Option (Option CellVal) :=
  (dct.find? (fun p => p.1 == k)).map Prod.snd

def skuInsert : List (String × ℚ) → String → ℚ → List (String × ℚ)
  | [], k, v => [(k, v)]
  | (k', v') :: rest, k, v =>
    if k' == k then (k, v) :: rest else (k', v') :: skuInsert rest k v

/-- The parser state consumed by `_create_order_json`: the scalar
`extracted_data` entries, the three normalized addresses (always set by
`_process_addresses`), and the extracted `Line_Items`. -/
structure ParserData where
  fields : Fields
  shippedToAddress : AddrInfo
  billedToAddress : AddrInfo
  supplierAddress : AddrInfo
  lineItems : List LineItem
deriving Repr

def getField (d : ParserData) (k : String) : Option CellVal :=
  fieldsGet d.fields k

structure Order where
  order_status_id : Int
  custom_source_id : String
  date_add : Date
  currency : String
  payment_method_cod : String
  paid : String
  email : String
  phone : String
  delivery_fullname : String
  delivery_company : String
  delivery_address : String
  delivery_state : Option String
  delivery_postcode : Option String
  delivery_country_code : String
  delivery_point_id : String
  delivery_point_name : Option CellVal
  delivery_point_address : String
  delivery_point_postcode : Option String
  invoice_nip : Option CellVal
  invoice_company : String
  invoice_address : String
  invoice_state : Option String
  invoice_postcode : Option String
  invoice_country_code : String
  products : List Product
  custom_extra_fields : Dict
deriving Repr, DecidableEq

/-- `self.extra_field_to_po_field_mapping`. -/
def extraFieldToPo (k : String) : Option String :=
  if k = "PO Number" then some "po#"
  else if k = "PO Expiry" then some "po_expiry"
  else none

/-- One entry of the `custom_extra_fields` dict comprehension:
`extracted_data.get(extra_field_to_po_field_mapping.get(key))`, where
`.get(None)` is `None`. -/
def extraLookup (d : ParserData) (k : String) : Option CellVal :=
  match extraFieldToPo k with
  | some pf => getField d pf
  | none => none

def initCustomFields (d : ParserData) (efm : List (String × String)) : Dict :=
  efm.foldl (fun acc kv => dictInsert acc (some kv.2) (extraLookup d kv.1)) []

/-- `extra_field_mapping.get(k)`. -/
def efmGet (efm : List (String × String)) (k : String) : Option String :=
  (efm.find? (fun p => p.1 == k)).map Prod.snd

def taxComponent (item : LineItem) (col : String) : Except Err ℚ := do
  let s ← pyStrReplaceE (itemGetD item col (.str "0")) "%" ""
  parseFloatE s

/-- One product from a LineItem, in the source's evaluation order: name,
EAN (internal spaces removed), gross price
`round(float(total.replace(',','')) / float(quantity), 2)`, tax rate as
the sum of the three percentage columns (absent columns default "0"), and
the integer quantity.  The float quantity is also returned because the
running total multiplies by `float(item.get("Quantity"))`. -/
def mkProduct (item : LineItem) : Except Err (Product × ℚ) := do
  let name := itemGet item "Title"
  let ean ← match itemGet item "FSN/ISBN13" with
    | none => Except.error Err.attrError
    | some c => pyStrReplaceE c " " ""
  let taS ← pyStrReplaceE (itemGetD item "Total Amount" (.str "0")) "," ""
  let ta ← parseFloatE taS
  let qf ← floatOfOpt (itemGet item "Quantity")
  if qf = 0 then Except.error Err.zeroDivision else
  let price := round2 (ta / qf)
  let t1 ← taxComponent item "SGST/UTGST Rate"
  let t2 ← taxComponent item "CGST Rate"
  let t3 ← taxComponent item "IGST Rate"
  let q ← match itemGet item "Quantity" with
    | none => Except.error Err.typeError
    | some c => pyIntE c
  Except.ok ({ name := name, ean := ean, price_brutto := price,
               tax_rate := t1 + t2 + t3, quantity := q }, qf)

/-- The loop state of the product loop: `order_json["products"]`,
`self.calculated_total`, `order_json["custom_extra_fields"]`, and
`self.sku_map`. -/
structure ProdAcc where
  products : List Product
  total : ℚ
  custom : Dict
  skuMap : List (String × ℚ)
deriving Repr

/-- One iteration of `for item in Line_Items[:-1]`: append the product,
set the sender-mail custom field, add `round(price * qty, 2)` to the
running total, and record the EAN price. -/
def processItem (sender : String) (skey : Option String) (acc : ProdAcc) (item : LineItem) :
    Except Err ProdAcc :=
  match mkProduct item with
  | .error e => .error e
  | .ok pq =>
    .ok { products := acc.products ++ [pq.1],
          total := acc.total + round2 (pq.1.price_brutto * pq.2),
          custom := dictInsert acc.custom skey (some (.str sender)),
          skuMap := skuInsert acc.skuMap pq.1.ean pq.1.price_brutto }

/-- The loop `for item in Line_Items[:-1]`: iterations run left to right
and the first raised error aborts the loop. -/
def processItems (sender : String) (skey : Option String) :
    ProdAcc → List LineItem → Except Err ProdAcc
  | acc, [] => .ok acc
  | acc, it :: rest =>
    match processItem sender skey acc it with
    | .error e => .error e
    | .ok a1 => processItems sender skey a1 rest

/-- The grand total from the last LineItem:
`float(Line_Items[-1].get("Total Amount").replace("INR","").replace(" ",""))`.
An empty list raises IndexError at `[-1]`; a missing column gives `None`
whose `.replace` raises AttributeError. -/
def grandTotal (items : List LineItem) : Except Err ℚ :=
  match items.getLast? with
  | none => .error .indexError
  | some it => do
    let s1 ← match itemGet it "Total Amount" with
      | none => Except.error Err.attrError
      | some c => pyStrReplaceE c "INR" ""
    parseFloatE (strReplace s1 " " "")

def initAcc (d : ParserData) (efm : List (String × String)) : ProdAcc :=
  { products := [], total := 0, custom := initCustomFields d efm, skuMap := [] }

/-- The fixed reconciliation failure message of the source. -/
def reconcileMsg : String :=
  "Calculated total price and PDF total price do not match"

/-- The `order_json` dict of `_create_order_json` with its fixed constants
and extracted slots, updated with the loop results. -/
def buildOrder (d : ParserData) (statusId : Int) (sourceId : String)
    (dateAdd : Date) (acc : ProdAcc) : Order :=
  { order_status_id := statusId
    custom_source_id := sourceId
    date_add := dateAdd
    currency := "INR"
    payment_method_cod := "1"
    paid := "0"
    email := ""
    phone := ""
    delivery_fullname := ""
    delivery_company := ""
    delivery_address := d.shippedToAddress.address
    delivery_state := d.shippedToAddress.state
    delivery_postcode := d.shippedToAddress.pincode
    delivery_country_code := "IN"
    delivery_point_id := ""
    delivery_point_name := getField d "supplier_name"
    delivery_point_address := d.supplierAddress.address
    delivery_point_postcode := d.supplierAddress.pincode
    invoice_nip := getField d "billed_by_gstin"
    invoice_company := ""
    invoice_address := d.billedToAddress.address
    invoice_state := d.billedToAddress.state
    invoice_postcode := d.billedToAddress.pincode
    invoice_country_code := "IN"
    products := acc.products
    custom_extra_fields := acc.custom }

/-- Embedding of `_create_order_json`, in the source's order of effects:
the date conversion (evaluated while building the dict literal), the
product loop over `Line_Items[:-1]`, the grand total from the last item,
and the tolerance gate `abs(calculated_total - grand_total) > 5`. -/
def createOrderJson (d : ParserData) (statusId : Int) (sourceId : String)
    (efm : List (String × String)) (sender : String) : Except Err Order :=
  match convertToUnix (getField d "order_date") with
  | .error e => .error e
  | .ok dateAdd =>
    match processItems sender (efmGet efm "Sender Mail") (initAcc d efm)
        d.lineItems.dropLast with
    | .error e => .error e
    | .ok acc =>
      match grandTotal d.lineItems with
      | .error e => .error e
      | .ok g =>
        if 5 < ratAbs (acc.total - g) then .error (.valueErrorMsg reconcileMsg)
        else .ok (buildOrder d statusId sourceId dateAdd acc)

/-- Specification-side restatement of the product loop's conversions: each
LineItem in the list becomes exactly one Product via `mkProduct`, in
order. -/
def mapProducts : List LineItem → Except Err (List Product)
  | [] => .ok []
  | it :: rest =>
    match mkProduct it with
    | .error e => .error e
    | .ok pq =>
      match mapProducts rest with
      | .error e => .error e
      | .ok ps => .ok (pq.1 :: ps)

/-! ### Concrete documents used by the witnesses -/

def item1 : LineItem :=
  [(.str "Title", .str "P1"), (.str "FSN/ISBN13", .str "F 1"),
   (.str "Total Amount", .str "200"), (.str "Quantity", .str "2")]

def lastItem205 : LineItem := [(.str "Total Amount", .str "INR 205")]

def lastItem206 : LineItem := [(.str "Total Amount", .str "INR 206")]

def lastItem3 : LineItem := [(.str "Total Amount", .str "INR 3")]

def efm1 : List (String × String) :=
  [("PO Number", "1"), ("PO Expiry", "2"), ("Sender Mail", "3")]

def emptyAddr : AddrInfo := ⟨"", none, none⟩

/-- A one-product document whose stated grand total (205) is exactly 5
away from the calculated total (200). -/
def d1 : ParserData :=
  { fields := [("order_date", some (.str "05-01-24"))],
    shippedToAddress := emptyAddr, billedToAddress := emptyAddr,
    supplierAddress := emptyAddr, lineItems := [item1, lastItem205] }

/-- The same document with the grand total set 6 units away (206). -/
def d2 : ParserData :=
  { d1 with lineItems := [item1, lastItem206] }

/-- A document whose line-item table is just the grand-total row. -/
def d3 : ParserData :=
  { d1 with lineItems := [lastItem3] }

/-- A document with an empty line-item list. -/
def d9 : ParserData :=
  { fields := [], shippedToAddress := emptyAddr, billedToAddress := emptyAddr,
    supplierAddress := emptyAddr, lineItems := [] }

/-- The loop state after processing `item1` of `d1`. -/
def acc1 : ProdAcc :=
  { products := [⟨some (.str "P1"), "F1", 100, 0, 2⟩],
    total := 200,
    custom := [(some "1", none), (some "2", none), (some "3", some (.str "me@x"))],
    skuMap := [("F1", 100)] }

/-! ## Claim C4 -/

/-- C4 counterexample: on the spec's own example address the cleaned text
still contains the postal-code token "560001" and the region token
"Karnataka" — the cleanup substitutions keep the matched token (regex
group 1) and only delete repetitions occurring after it — so the claim
that "the postal-code token, the region token, and the GSTIN label have
all been removed" is false at this input. -/
theorem c4_counterexample :
    strContains (extractDetailsFromAddress
      (some "123 MG Road, Bangalore, Karnataka 560001, GSTIN No: 29ABCDE1234F1Z5")).address
      "560001" = true
    ∧ strContains (extractDetailsFromAddress
      (some "123 MG Road, Bangalore, Karnataka 560001, GSTIN No: 29ABCDE1234F1Z5")).address
      "Karnataka" = true := by
  exact ⟨by decide, by decide⟩

/-- C4 amended: normalizing the example address yields postal code
"560001" and region "Karnataka", and a cleaned text from which only the
GSTIN label has been removed; the first occurrences of the postal-code and
region tokens remain in the cleaned text. -/
theorem c4_amended :
    extractDetailsFromAddress
      (some "123 MG Road, Bangalore, Karnataka 560001, GSTIN No: 29ABCDE1234F1Z5")
    = ⟨"123 MG Road, Bangalore, Karnataka 560001, 29ABCDE1234F1Z5",
       some "560001", some "Karnataka"⟩ := by
  decide

/-! ## Claim C7 -/

/-- C7 counterexample: "hello  world" contains no 6-digit token and no
region name, yet normalization returns "hello world" (the whitespace run
collapsed), not the input text, so strong idempotence as claimed fails. -/
theorem c7_counterexample :
    findPincode "hello  world" = none
    ∧ findState "hello  world" = none
    ∧ (extractDetailsFromAddress (some "hello  world")).address = "hello world"
    ∧ ("hello world" : String) ≠ "hello  world" := by
  exact ⟨by decide, by decide, by decide, by decide⟩

/-- C7 amended: on any text free of 6-digit tokens and region names, the
postal code and region are both absent, and the cleaned text is the input
transformed only by the unconditional final cleanup pass (whitespace-run
collapse, comma-pair collapse, trailing-comma removal, GSTIN-label
removal, and trimming); the text is returned verbatim exactly when that
pass fixes it. -/
theorem c7_amended (s : String) (hp : findPincode s = none) (hs : findState s = none) :
    extractDetailsFromAddress (some s) = ⟨String.mk (finalCleanupL s.data), none, none⟩ := by
  by_cases h : s = ""
  · subst h; decide
  · simp only [extractDetailsFromAddress, h, if_false, hp, hs]

/-- C7 witness: the amended theorem applied at a concrete region-free,
code-free input. -/
theorem c7_amended_witness :
    findPincode "No Code Street" = none
    ∧ findState "No Code Street" = none
    ∧ extractDetailsFromAddress (some "No Code Street")
      = ⟨String.mk (finalCleanupL "No Code Street".data), none, none⟩ :=
  ⟨by decide, by decide, c7_amended "No Code Street" (by decide) (by decide)⟩

/-! ## Claim C8 -/

/-- Statement of the claim's strict date format ("two-digit day, two-digit
month, two-digit year, dash-separated"), written from the claim's words
for comparison with the parser embedded from the source. -/
def claimedTwoDigitPattern (s : String) : Bool :=
  match splitOnDash [] s.data with
  | [a, b, c] =>
    a.length == 2 && b.length == 2 && c.length == 2
    && a.all Char.isDigit && b.all Char.isDigit && c.all Char.isDigit
  | _ => false

/-- C8 counterexample: "5-1-24" does not match the claimed strict
two-digit pattern, yet the order-date conversion succeeds on it (CPython's
`%d` and `%m` accept one-digit values), so "any date string not matching
that single pattern causes a fatal parse error" is false. -/
theorem c8_counterexample :
    claimedTwoDigitPattern "5-1-24" = false
    ∧ convertToUnix (some (.str "5-1-24")) = .ok (5, 1, 2024) := by
  exact ⟨by decide, by decide⟩

/-- C8 amended: the order-date field is parsed against exactly one fixed
dash-separated day-month-two-digit-year pattern in which day and month may
be one or two digits: "05-01-24" parses successfully; every successful
parse decomposes the string into that single pattern (so no alternate
pattern is ever accepted); and strings in other formats — four-digit year,
year-first with slashes kept, an out-of-range month — fail fatally. -/
theorem c8_amended :
    convertToUnix (some (.str "05-01-24")) = .ok (5, 1, 2024)
    ∧ (∀ s t, parseDateDMY s = some t →
        ∃ a b c, splitOnDash [] s.data = [a, b, c]
          ∧ dayOfSeg a = some t.1 ∧ monthOfSeg b = some t.2.1 ∧ yearOfSeg c = some t.2.2
          ∧ t.1 ≤ daysInMonth t.2.2 t.2.1)
    ∧ convertToUnix (some (.str "05-01-2024")) = .error .dateParseError
    ∧ convertToUnix (some (.str "2024-01-05")) = .error .dateParseError
    ∧ convertToUnix (some (.str "05/01/24")) = .error .dateParseError
    ∧ convertToUnix (some (.str "05-13-24")) = .error .dateParseError := by
  refine ⟨by decide, ?_, by decide, by decide, by decide, by decide⟩
  intro s t h
  unfold parseDateDMY at h
  split at h
  · rename_i a b c hsplit
    split at h
    · rename_i d m y hd hm hy
      split at h
      · rename_i hle
        cases h
        exact ⟨a, b, c, hsplit, hd, hm, hy, hle⟩
      · cases h
    · cases h
  · cases h

/-! ## Claim C6 -/

/-- Helper: the loop of `_process_extra_fields` collects exactly the
unresolved requested names, in order, as its missing list. -/
theorem pefStep_foldl_snd (data : List ExtraFieldEntry) :
    ∀ (req : List String) (acc : List (String × String) × List String),
      (req.foldl (pefStep data) acc).2
        = acc.2 ++ req.filter (fun f => (resolveExtraField data f).isNone) := by
  intro req
  induction req with
  | nil => intro acc; simp
  | cons f rest ih =>
    intro acc
    simp only [List.foldl_cons, List.filter_cons]
    cases hre : resolveExtraField data f with
    | none =>
      simp only [pefStep, hre, Option.isNone_none, ih, List.append_assoc]
      simp
    | some fid =>
      simp only [pefStep, hre, Option.isNone_some, ih]
      simp

/-- C6 counterexample: with a response resolving only "PO Number" and
"PO Expiry", the extra-field step does not return a mapping for the
resolved fields — `send_error_email` ends in `raise ValueError(...)`, so
the missing "Sender Mail" aborts processing, refuting "non-fatal ...
processing continues to produce a result for the remaining fields". -/
theorem c6_counterexample :
    processExtraFields [⟨"PO Number", "11"⟩, ⟨"PO Expiry", "12"⟩]
      ["PO Number", "PO Expiry", "Sender Mail"]
    = .error (.valueErrorMsg "Missing fields in response: Sender Mail") := by
  decide

/-- C6 amended: a required extra-field name unresolved by the lookup is
omitted from the mapping under construction and flagged to the
notification path (the raised ValueError carries exactly the unresolved
names), but the failure is fatal: no mapping is returned for the
remaining fields. -/
theorem c6_amended (data : List ExtraFieldEntry) (req : List String)
    (h : req.filter (fun f => (resolveExtraField data f).isNone) ≠ []) :
    processExtraFields data req
    = .error (.valueErrorMsg ("Missing fields in response: "
        ++ String.intercalate ", " (req.filter (fun f => (resolveExtraField data f).isNone)))) := by
  simp only [processExtraFields]
  have hm := pefStep_foldl_snd data req ([], [])
  simp only [List.nil_append] at hm
  rw [hm]
  simp [List.isEmpty_iff, h]

/-- C6 witness: the amended theorem applied to a concrete response that
lacks "Sender Mail". -/
theorem c6_amended_witness :
    (["PO Number", "Sender Mail"].filter
        (fun f => (resolveExtraField [⟨"PO Number", "11"⟩] f).isNone) ≠ [])
    ∧ processExtraFields [⟨"PO Number", "11"⟩] ["PO Number", "Sender Mail"]
      = .error (.valueErrorMsg ("Missing fields in response: "
          ++ String.intercalate ", " (["PO Number", "Sender Mail"].filter
              (fun f => (resolveExtraField [⟨"PO Number", "11"⟩] f).isNone)))) :=
  ⟨by decide, c6_amended _ _ (by decide)⟩

/-! ## Claim C2 -/

theorem firstIdxWhere_eq_none {α : Type _} (p : α → Bool) :
    ∀ l : List α, (∀ r ∈ l, p r = false) → firstIdxWhere p l = none := by
  intro l
  induction l with
  | nil => intro _; rfl
  | cons a as ih =>
    intro h
    have ha := h a (List.mem_cons_self a as)
    simp only [firstIdxWhere, ha, Bool.false_eq_true, if_false]
    rw [ih (fun r hr => h r (List.mem_cons_of_mem a hr))]
    rfl

/-- The break flag of one scanned row is exactly "some cell contains the
boundary marker". -/
theorem scanRowAux_snd (row : Row) :
    ∀ (cells : List CellVal) (fields : Fields) (i : Nat),
      (scanRowAux row fields i cells).2 = cells.any cellHasMarker := by
  intro cells
  induction cells with
  | nil => intro _ _; rfl
  | cons c rest ih =>
    intro fields i
    simp only [scanRowAux, List.any_cons]
    by_cases hc : cellHasMarker c = true
    · simp [hc]
    · simp only [Bool.not_eq_true] at hc
      simp [hc, ih]

theorem scanRow_snd (row : Row) (fields : Fields) :
    (scanRow row fields).2 = rowHasMarker row :=
  scanRowAux_snd row row fields 0

/-- The scan reports the missing-section error exactly when no examined
(text-first) row contains the marker, for grids without width-zero rows. -/
theorem scanAux_missing_iff :
    ∀ (rows : List Row) (fields : Fields) (idx : Nat),
      (∀ r ∈ rows, r ≠ []) →
      (scanAux fields idx rows = .error .missingSection
        ↔ ∀ r ∈ rows, scannedRow r = true → rowHasMarker r = false) := by
  intro rows
  induction rows with
  | nil =>
    intro fields idx _
    constructor
    · intro _ r hr; exact absurd hr (List.not_mem_nil r)
    · intro _; rfl
  | cons r rest ih =>
    intro fields idx hne
    obtain ⟨c0, rtl, rfl⟩ : ∃ c0 rtl, r = c0 :: rtl := by
      cases r with
      | nil => exact absurd rfl (hne [] (List.mem_cons_self _ _))
      | cons a b => exact ⟨a, b, rfl⟩
    have hrest : ∀ r ∈ rest, r ≠ [] := fun r hr => hne r (List.mem_cons_of_mem _ hr)
    rw [List.forall_mem_cons]
    by_cases hstr : isStrCell c0 = true
    · have hsr : scannedRow (c0 :: rtl) = true := by simp [scannedRow, hstr]
      by_cases hm : rowHasMarker (c0 :: rtl) = true
      · have hres : scanAux fields idx ((c0 :: rtl) :: rest)
            = .ok ((scanRow (c0 :: rtl) fields).1, idx) := by
          simp [scanAux, hstr, scanRow_snd, hm]
        rw [hres]
        constructor
        · intro h; exact absurd h (by simp)
        · intro h; exact absurd hm (by simp [h.1 hsr])
      · simp only [Bool.not_eq_true] at hm
        have hres : scanAux fields idx ((c0 :: rtl) :: rest)
            = scanAux (scanRow (c0 :: rtl) fields).1 (idx + 1) rest := by
          simp [scanAux, hstr, scanRow_snd, hm]
        rw [hres, ih _ _ hrest]
        simp [hm]
    · simp only [Bool.not_eq_true] at hstr
      have hsr : scannedRow (c0 :: rtl) = false := by simp [scannedRow, hstr]
      have hres : scanAux fields idx ((c0 :: rtl) :: rest)
          = scanAux fields (idx + 1) rest := by
        simp [scanAux, hstr]
      rw [hres, ih _ _ hrest]
      simp [hsr]

/-- A successful scan stops at the first text-first row containing the
marker: the returned index is that row's index, and rows after it do not
influence the result. -/
theorem scanAux_ok_shape :
    ∀ (rows : List Row) (fields : Fields) (idx : Nat) (fs : Fields) (i : Nat),
      (∀ r ∈ rows, r ≠ []) →
      scanAux fields idx rows = .ok (fs, i) →
      ∃ j, i = idx + j
        ∧ firstIdxWhere (fun r => scannedRow r && rowHasMarker r) rows = some j
        ∧ ∀ rest2, scanAux fields idx (rows.take (j + 1) ++ rest2) = .ok (fs, i) := by
  intro rows
  induction rows with
  | nil => intro fields idx fs i _ h; exact absurd h (by simp [scanAux])
  | cons r rest ih =>
    intro fields idx fs i hne hok
    obtain ⟨c0, rtl, rfl⟩ : ∃ c0 rtl, r = c0 :: rtl := by
      cases r with
      | nil => exact absurd rfl (hne [] (List.mem_cons_self _ _))
      | cons a b => exact ⟨a, b, rfl⟩
    have hrest : ∀ r ∈ rest, r ≠ [] := fun r hr => hne r (List.mem_cons_of_mem _ hr)
    by_cases hstr : isStrCell c0 = true
    · have hsr : scannedRow (c0 :: rtl) = true := by simp [scannedRow, hstr]
      by_cases hm : rowHasMarker (c0 :: rtl) = true
      · have hres : scanAux fields idx ((c0 :: rtl) :: rest)
            = .ok ((scanRow (c0 :: rtl) fields).1, idx) := by
          simp [scanAux, hstr, scanRow_snd, hm]
        rw [hres] at hok
        obtain ⟨hfs, hi⟩ : (scanRow (c0 :: rtl) fields).1 = fs ∧ idx = i := by
          cases hok; exact ⟨rfl, rfl⟩
        refine ⟨0, by omega, ?_, ?_⟩
        · simp [firstIdxWhere, hsr, hm]
        · intro rest2
          simp only [List.take_succ_cons, List.take_zero, List.cons_append, List.nil_append]
          rw [show scanAux fields idx ((c0 :: rtl) :: rest2)
              = .ok ((scanRow (c0 :: rtl) fields).1, idx) by
            simp [scanAux, hstr, scanRow_snd, hm]]
          rw [hfs, hi]
      · simp only [Bool.not_eq_true] at hm
        have hres : scanAux fields idx ((c0 :: rtl) :: rest)
            = scanAux (scanRow (c0 :: rtl) fields).1 (idx + 1) rest := by
          simp [scanAux, hstr, scanRow_snd, hm]
        rw [hres] at hok
        obtain ⟨j, hij, hfi, htake⟩ := ih _ _ _ _ hrest hok
        refine ⟨j + 1, by omega, ?_, ?_⟩
        · simp [firstIdxWhere, hsr, hm, hfi]
        · intro rest2
          simp only [List.take_succ_cons, List.cons_append]
          rw [show scanAux fields idx ((c0 :: rtl) :: (rest.take (j + 1) ++ rest2))
              = scanAux (scanRow (c0 :: rtl) fields).1 (idx + 1) (rest.take (j + 1) ++ rest2) by
            simp [scanAux, hstr, scanRow_snd, hm]]
          exact htake rest2
    · simp only [Bool.not_eq_true] at hstr
      have hsr : scannedRow (c0 :: rtl) = false := by simp [scannedRow, hstr]
      have hres : scanAux fields idx ((c0 :: rtl) :: rest)
          = scanAux fields (idx + 1) rest := by
        simp [scanAux, hstr]
      rw [hres] at hok
      obtain ⟨j, hij, hfi, htake⟩ := ih _ _ _ _ hrest hok
      refine ⟨j + 1, by omega, ?_, ?_⟩
      · simp [firstIdxWhere, hsr, hfi]
      · intro rest2
        simp only [List.take_succ_cons, List.cons_append]
        rw [show scanAux fields idx ((c0 :: rtl) :: (rest.take (j + 1) ++ rest2))
            = scanAux fields (idx + 1) (rest.take (j + 1) ++ rest2) by
          simp [scanAux, hstr]]
        exact htake rest2

/-- C2: for a grid with no width-zero rows, the document scan fails with
the missing-section error exactly when no scanned (text-first) row
contains the literal marker "ORDER DETAILS"; and on success the recorded
boundary is the index of the first such row, after which no further rows
are scanned (rows beyond the boundary cannot change the result). -/
theorem c2_scan (grid : List Row) (hrows : ∀ r ∈ grid, r ≠ []) :
    (extractOrderDetails grid = .error .missingSection
       ↔ ∀ r ∈ grid, scannedRow r = true → rowHasMarker r = false)
    ∧ (∀ fs i, extractOrderDetails grid = .ok (fs, i) →
        firstIdxWhere (fun r => scannedRow r && rowHasMarker r) grid = some i
        ∧ ∀ rest, extractOrderDetails (grid.take (i + 1) ++ rest) = .ok (fs, i)) := by
  constructor
  · exact scanAux_missing_iff grid [] 0 hrows
  · intro fs i hok
    obtain ⟨j, hij, hfi, htake⟩ := scanAux_ok_shape grid [] 0 fs i hrows hok
    have hji : j = i := by omega
    subst hji
    exact ⟨hfi, fun rest => htake rest⟩

/-- C2 witness: the scan theorem applied to a concrete grid whose second
row carries the marker; appending junk after the boundary does not change
the result. -/
theorem c2_scan_witness :
    (∀ r ∈ [[CellVal.str "x"], [CellVal.str "a", CellVal.str "ORDER DETAILS"],
        [CellVal.str "junk"]], r ≠ [])
    ∧ firstIdxWhere (fun r => scannedRow r && rowHasMarker r)
        [[CellVal.str "x"], [CellVal.str "a", CellVal.str "ORDER DETAILS"],
         [CellVal.str "junk"]] = some 1
    ∧ extractOrderDetails ([[CellVal.str "x"],
        [CellVal.str "a", CellVal.str "ORDER DETAILS"]] ++ [[CellVal.nan]])
      = .ok ([], 1) := by
  have h := (c2_scan [[CellVal.str "x"], [CellVal.str "a", CellVal.str "ORDER DETAILS"],
      [CellVal.str "junk"]] (by decide)).2 [] 1 (by decide)
  exact ⟨by decide, h.1, h.2 [[CellVal.nan]]⟩

/-! ## Claim C5 -/

/-- C5: when no row of the post-boundary region contains
"Important Notification", `_process_line_items` always raises instead of
returning: `start_row + None` is a TypeError (or, for an empty region,
`table_df.iloc[0]` is an IndexError first).  This contradicts the claim
(and spec), which say the whole region is used as the table and the call
returns normally with no totals, so the claim describes the evident intent
and the code path is a slip. -/
theorem c5_no_marker_errors (fields : Fields) (grid : List Row) (odIdx : Nat)
    (h : ∀ r ∈ grid.drop (odIdx + 1), rowHasNotif r = false) :
    processLineItems fields grid odIdx = .error .typeError
    ∨ processLineItems fields grid odIdx = .error .indexError := by
  have hfind : firstIdxWhere rowHasNotif (grid.drop (odIdx + 1)) = none :=
    firstIdxWhere_eq_none _ _ h
  cases hdrop : grid.drop (odIdx + 1) with
  | nil =>
    right
    simp [processLineItems, hdrop, firstIdxWhere]
  | cons hdr rows =>
    left
    rw [hdrop] at hfind
    simp [processLineItems, hdrop, hfind]

/-- C5 witness: a concrete boundary-then-table grid with no notification
marker row; extraction errors with the TypeError. -/
theorem c5_no_marker_errors_witness :
    (∀ r ∈ ([[CellVal.str "ORDER DETAILS"], [CellVal.str "Title"],
        [CellVal.str "A"]] : List Row).drop 1, rowHasNotif r = false)
    ∧ (processLineItems [] [[CellVal.str "ORDER DETAILS"], [CellVal.str "Title"],
        [CellVal.str "A"]] 0 = .error .typeError
      ∨ processLineItems [] [[CellVal.str "ORDER DETAILS"], [CellVal.str "Title"],
        [CellVal.str "A"]] 0 = .error .indexError) :=
  ⟨by decide, c5_no_marker_errors [] _ 0 (by decide)⟩

/-! ## OrderAssembler lemmas shared by claims C1, C3, C9 and C10 -/

/-- Inserting a key and reading it back gives the inserted value. -/
theorem dictFind_dictInsert_self (dct : Dict) (k : Option String) (v : Option CellVal) :
    dictFind (dictInsert dct k v) k = some v := by
  induction dct with
  | nil => simp [dictInsert, dictFind, List.find?]
  | cons kv rest ih =>
    obtain ⟨k', v'⟩ := kv
    simp only [dictInsert]
    by_cases h : (k' == k) = true
    · simp [h, dictFind, List.find?]
    · simp only [Bool.not_eq_true] at h
      simp only [h, Bool.false_eq_true, if_false]
      simp only [dictFind, List.find?, h] at ih ⊢
      exact ih

/-- A successful product loop converts each processed LineItem into
exactly one Product, in order. -/
theorem processItems_ok_products (sender : String) (skey : Option String) :
    ∀ (items : List LineItem) (acc acc' : ProdAcc),
      processItems sender skey acc items = .ok acc' →
      ∃ ps, mapProducts items = .ok ps
        ∧ acc'.products = acc.products ++ ps
        ∧ ps.length = items.length := by
  intro items
  induction items with
  | nil =>
    intro acc acc' hok
    simp only [processItems] at hok
    cases hok
    exact ⟨[], rfl, by simp, rfl⟩
  | cons it rest ih =>
    intro acc acc' hok
    simp only [processItems] at hok
    split at hok
    · exact absurd hok (by simp)
    · rename_i a1 hstep
      obtain ⟨ps', hmap, hprod, hlen⟩ := ih a1 acc' hok
      unfold processItem at hstep
      split at hstep
      · exact absurd hstep (by simp)
      · rename_i pq hmk
        cases hstep
        refine ⟨pq.1 :: ps', ?_, ?_, ?_⟩
        · simp only [mapProducts, hmk, hmap]
        · simp only [hprod, List.append_assoc, List.singleton_append]
        · simp [hlen]

/-- After a successful loop over a nonempty item list, the sender-mail
key of `custom_extra_fields` holds the sender's address (the loop writes
it on every iteration; the last write stands). -/
theorem processItems_ok_custom (sender : String) (skey : Option String) :
    ∀ (items : List LineItem) (acc acc' : ProdAcc), items ≠ [] →
      processItems sender skey acc items = .ok acc' →
      dictFind acc'.custom skey = some (some (.str sender)) := by
  intro items
  induction items with
  | nil => intro acc acc' hne _; exact absurd rfl hne
  | cons it rest ih =>
    intro acc acc' _ hok
    simp only [processItems] at hok
    split at hok
    · exact absurd hok (by simp)
    · rename_i a1 hstep
      cases rest with
      | nil =>
        simp only [processItems] at hok
        cases hok
        unfold processItem at hstep
        split at hstep
        · exact absurd hstep (by simp)
        · rename_i pq hmk
          cases hstep
          exact dictFind_dictInsert_self _ _ _
      | cons r rs => exact ih a1 acc' (by simp) hok

/-- The errors of `_convert_to_unix` are the AttributeError on a
non-string and the strptime ValueError; in particular it never produces
the reconciliation error. -/
theorem convertToUnix_error_cases (v : Option CellVal) (e : Err)
    (h : convertToUnix v = .error e) : e = .attrError ∨ e = .dateParseError := by
  cases v with
  | none =>
    simp only [convertToUnix, Except.error.injEq] at h
    exact Or.inl h.symm
  | some c =>
    cases c with
    | str s =>
      simp only [convertToUnix] at h
      split at h
      · exact absurd h (by simp)
      · simp only [Except.error.injEq] at h
        exact Or.inr h.symm
    | num q =>
      simp only [convertToUnix, Except.error.injEq] at h
      exact Or.inl h.symm
    | nan =>
      simp only [convertToUnix, Except.error.injEq] at h
      exact Or.inl h.symm

/-- A successful assembly decomposes into a successful date conversion,
product loop and grand-total parse, a within-tolerance difference, and the
built order. -/
theorem createOrderJson_ok_shape (d : ParserData) (sid : Int) (src : String)
    (efm : List (String × String)) (sender : String) (o : Order)
    (hok : createOrderJson d sid src efm sender = .ok o) :
    ∃ dateAdd acc g,
      convertToUnix (getField d "order_date") = .ok dateAdd
      ∧ processItems sender (efmGet efm "Sender Mail") (initAcc d efm)
          d.lineItems.dropLast = .ok acc
      ∧ grandTotal d.lineItems = .ok g
      ∧ ratAbs (acc.total - g) ≤ 5
      ∧ o = buildOrder d sid src dateAdd acc := by
  unfold createOrderJson at hok
  split at hok
  · exact absurd hok (by simp)
  · rename_i dateAdd hd
    split at hok
    · exact absurd hok (by simp)
    · rename_i acc hp
      split at hok
      · exact absurd hok (by simp)
      · rename_i g hg
        split at hok
        · exact absurd hok (by simp)
        · rename_i hlt
          cases hok
          exact ⟨dateAdd, acc, g, hd, hp, hg, not_lt.mp hlt, rfl⟩

/-! ## Claim C1 -/

/-- C1: once the date, the product loop (with calculated total
`acc.total`) and the grand total `g` have been obtained, assembly fails
fatally with the reconciliation ValueError when `|acc.total - g| > 5` and
returns no order; when the difference is at most 5 it succeeds and
returns the built order. -/
theorem c1_reconciliation (d : ParserData) (sid : Int) (src : String)
    (efm : List (String × String)) (sender : String) (dateV : Date)
    (acc : ProdAcc) (g : ℚ)
    (hd : convertToUnix (getField d "order_date") = .ok dateV)
    (hp : processItems sender (efmGet efm "Sender Mail") (initAcc d efm)
        d.lineItems.dropLast = .ok acc)
    (hg : grandTotal d.lineItems = .ok g) :
    (5 < ratAbs (acc.total - g) →
      createOrderJson d sid src efm sender = .error (.valueErrorMsg reconcileMsg))
    ∧ (ratAbs (acc.total - g) ≤ 5 →
      createOrderJson d sid src efm sender = .ok (buildOrder d sid src dateV acc)) := by
  constructor
  · intro h
    simp [createOrderJson, hd, hp, hg, h]
  · intro h
    simp [createOrderJson, hd, hp, hg, not_lt.mpr h]

/-- C1 witness: the spec's boundary cases on a concrete document — a
grand total 5 away reconciles, the same document with the grand total 6
away fails with the reconciliation error. -/
theorem c1_witness :
    convertToUnix (getField d1 "order_date") = .ok (5, 1, 2024)
    ∧ processItems "me@x" (efmGet efm1 "Sender Mail") (initAcc d1 efm1)
        d1.lineItems.dropLast = .ok acc1
    ∧ grandTotal d1.lineItems = .ok 205
    ∧ grandTotal d2.lineItems = .ok 206
    ∧ createOrderJson d1 7 "src1" efm1 "me@x"
        = .ok (buildOrder d1 7 "src1" (5, 1, 2024) acc1)
    ∧ createOrderJson d2 7 "src1" efm1 "me@x"
        = .error (.valueErrorMsg reconcileMsg) := by
  refine ⟨by rfl, by rfl, by rfl, by rfl, ?_, ?_⟩
  · exact (c1_reconciliation d1 7 "src1" efm1 "me@x" (5, 1, 2024) acc1 205
      (by rfl) (by rfl) (by rfl)).2 (by decide)
  · exact (c1_reconciliation d2 7 "src1" efm1 "me@x" (5, 1, 2024) acc1 206
      (by rfl) (by rfl) (by rfl)).1 (by decide)

/-! ## Claim C3 -/

/-- C3: in every successfully assembled order, the Products are exactly
the conversions of the LineItems strictly before the last one (the last
LineItem is never converted); in particular the product count is the item
count minus one, and a one-row table yields zero products. -/
theorem c3_last_item (d : ParserData) (sid : Int) (src : String)
    (efm : List (String × String)) (sender : String) (xs : List LineItem)
    (last : LineItem) (o : Order)
    (hitems : d.lineItems = xs ++ [last])
    (hok : createOrderJson d sid src efm sender = .ok o) :
    (∃ ps, mapProducts xs = .ok ps ∧ o.products = ps)
    ∧ o.products.length = xs.length
    ∧ (xs = [] → o.products = []) := by
  obtain ⟨dateAdd, acc, g, hd, hp, hg, hle, ho⟩ :=
    createOrderJson_ok_shape _ _ _ _ _ _ hok
  rw [hitems, List.dropLast_concat] at hp
  obtain ⟨ps, hmap, hprod, hlen⟩ := processItems_ok_products _ _ _ _ _ hp
  have hop : o.products = ps := by
    rw [ho]
    simp only [buildOrder]
    simp [hprod, initAcc]
  refine ⟨⟨ps, hmap, hop⟩, ?_, ?_⟩
  · rw [hop, hlen]
  · intro hxs
    subst hxs
    simp only [mapProducts] at hmap
    cases hmap
    exact hop

/-- C3 witness: the theorem applied to a two-row document (one product)
and to a one-row document (zero products). -/
theorem c3_witness :
    d1.lineItems = [item1] ++ [lastItem205]
    ∧ (buildOrder d1 7 "src1" (5, 1, 2024) acc1).products.length = [item1].length
    ∧ d3.lineItems = ([] : List LineItem) ++ [lastItem3]
    ∧ (buildOrder d3 7 "src1" (5, 1, 2024) (initAcc d3 efm1)).products = [] := by
  refine ⟨rfl, ?_, rfl, ?_⟩
  · exact (c3_last_item d1 7 "src1" efm1 "me@x" [item1] lastItem205 _ rfl (by rfl)).2.1
  · exact (c3_last_item d3 7 "src1" efm1 "me@x" [] lastItem3 _ rfl (by rfl)).2.2 rfl

/-! ## Claim C9 -/

/-- C9: with an empty LineItem list, assembly always raises before the
reconciliation comparison — either the date conversion fails, or the
grand-total access `Line_Items[-1]` raises IndexError — and never returns
an order; the raised error is never the reconciliation error. -/
theorem c9_empty_items (d : ParserData) (sid : Int) (src : String)
    (efm : List (String × String)) (sender : String)
    (hitems : d.lineItems = []) :
    ∃ e, createOrderJson d sid src efm sender = .error e
      ∧ (e = .attrError ∨ e = .dateParseError ∨ e = .indexError)
      ∧ e ≠ .valueErrorMsg reconcileMsg := by
  cases hd : convertToUnix (getField d "order_date") with
  | error e =>
    have hres : createOrderJson d sid src efm sender = .error e := by
      simp [createOrderJson, hd]
    rcases convertToUnix_error_cases _ _ hd with h1 | h1
    · exact ⟨e, hres, Or.inl h1, by subst h1; simp⟩
    · exact ⟨e, hres, Or.inr (Or.inl h1), by subst h1; simp⟩
  | ok dateAdd =>
    have hres : createOrderJson d sid src efm sender = .error .indexError := by
      simp [createOrderJson, hd, hitems, processItems, grandTotal]
    exact ⟨.indexError, hres, Or.inr (Or.inr rfl), by simp⟩

/-- C9 witness: a concrete document with an empty line-item list; assembly
raises (here the date field is also absent, giving the AttributeError)
and returns no order. -/
theorem c9_witness :
    d9.lineItems = []
    ∧ (∃ e, createOrderJson d9 0 "" [] "" = .error e
        ∧ (e = .attrError ∨ e = .dateParseError ∨ e = .indexError)
        ∧ e ≠ .valueErrorMsg reconcileMsg)
    ∧ createOrderJson d9 0 "" [] "" = .error .attrError :=
  ⟨rfl, c9_empty_items d9 0 "" [] "" rfl, by rfl⟩

/-! ## Claim C10 -/

/-- C10 counterexample: a one-row table (grand-total row only, zero
products) still assembles with the sender-mail field id "3" present in
`custom_extra_fields` — mapped to Python `None` by the initial dict
comprehension, which iterates over the whole extra-field mapping including
"Sender Mail" — refuting "present if and only if at least one Product was
created; for ... zero product rows, the sender-email field is absent". -/
theorem c10_counterexample :
    (createOrderJson d3 7 "src1" efm1 "me@x").map
        (fun o => (o.products, dictFind o.custom_extra_fields (some "3")))
      = .ok ([], some none) := by
  rfl

/-- C10 amended: the sender-email value is written only inside the
per-product loop, but the sender-mail field id is always a key of
`custom_extra_fields`: it maps to the sender's address exactly when at
least one Product was created, and to Python `None` (from the initial
dict comprehension) when the table had zero product rows. -/
theorem c10_amended (d : ParserData) (sid : Int) (src : String)
    (pid eid sid' sender : String) (xs : List LineItem) (last : LineItem) (o : Order)
    (hitems : d.lineItems = xs ++ [last])
    (hok : createOrderJson d sid src
        [("PO Number", pid), ("PO Expiry", eid), ("Sender Mail", sid')] sender = .ok o) :
    dictFind o.custom_extra_fields (some sid')
      = some (if xs = [] then none else some (.str sender)) := by
  obtain ⟨dateAdd, acc, g, hd, hp, hg, hle, ho⟩ :=
    createOrderJson_ok_shape _ _ _ _ _ _ hok
  rw [hitems, List.dropLast_concat] at hp
  have h1 : ("PO Number" == "Sender Mail") = false := by decide
  have h2 : ("PO Expiry" == "Sender Mail") = false := by decide
  have h3 : ("Sender Mail" == "Sender Mail") = true := by decide
  have hskey : efmGet [("PO Number", pid), ("PO Expiry", eid), ("Sender Mail", sid')]
      "Sender Mail" = some sid' := by
    simp [efmGet, List.find?, h1, h2, h3]
  rw [hskey] at hp
  have hcust : o.custom_extra_fields = acc.custom := by
    subst ho; rfl
  by_cases hxs : xs = []
  · subst hxs
    simp only [processItems] at hp
    cases hp
    rw [hcust]
    simp only [initAcc, if_pos rfl]
    have hsm : extraLookup d "Sender Mail" = none := by
      simp [extraLookup, extraFieldToPo]
    simp only [initCustomFields, List.foldl_cons, List.foldl_nil, hsm]
    exact dictFind_dictInsert_self _ _ _
  · rw [hcust, if_neg hxs]
    exact processItems_ok_custom _ _ xs _ _ hxs hp

/-- C10 witness: the amended theorem applied to the one-product document;
the sender-mail id "3" holds the sender address. -/
theorem c10_amended_witness :
    d1.lineItems = [item1] ++ [lastItem205]
    ∧ dictFind (buildOrder d1 7 "src1" (5, 1, 2024) acc1).custom_extra_fields (some "3")
      = some (if ([item1] : List LineItem) = [] then none else some (.str "me@x")) :=
  ⟨rfl, c10_amended d1 7 "src1" "1" "2" "3" "me@x" [item1] lastItem205 _ rfl (by rfl)⟩

end FlipkartPO
